import Mathlib

/-!
Verification development for the icx command-line tools: the validator
status reporter (src/icx/preps/status.py) and the transaction scanner
(src/icx/txscan.py).  Each Python function used by the claims is embedded
as a Lean definition; stateful loops are embedded as explicit recursion
with the loop state passed along.
-/

namespace Icx

/-! Embedding of src/icx/preps/status.py -/

/-- Dotted numeric version strings are modelled as their lists of numeric
components. -/
abbrev Version := List Nat

/-- Component-by-component comparison of dotted numeric versions, first
differing component decides, a missing trailing component compares as zero. -/
def versionLt : List Nat → List Nat → Bool
  | [], [] => false
  | [], y :: ys => if 0 < y then true else versionLt [] ys
  | x :: xs, [] => if 0 < x then false else versionLt xs []
  | x :: xs, y :: ys => if x < y then true else if y < x then false else versionLt xs ys

/-- Modelled from the spec: the function `is_lower_version` of the
`semanticversion` module, which is not under src/.  Per spec section 4.3 it
returns true iff the first version is strictly below the second, where an
absent first argument is lower than any concrete version, an absent second
argument makes the result false, and components compare as integers with
missing trailing components treated as zero. -/
def is_lower_version (a b : Option Version) : Bool :=
  match b with
  | none => false
  | some bv =>
    match a with
    | none => true
    | some av => versionLt av bv

/-- The dictionary returned by a node's getChain query; the height and state
keys may be absent. -/
structure ChainSnap where
  height : Option Nat
  state : Option String
deriving Repr, DecidableEq

/-- The outcome of the two queries submitted for one roster item: `none`
means the future's result() raised (including the IndexError raised when the
item had no futures at all). -/
structure PolledItem where
  chainQ : Option ChainSnap
  verQ : Option Version
deriving Repr, DecidableEq

/-- The fields the aggregation loop stores back on an item: `chain = none`
models `item.chain = None` (unreachable) and `version = none` models the
string marker `item.version = "unknown"`. -/
structure Resolved where
  chain : Option ChainSnap
  version : Option Version
deriving Repr, DecidableEq

/-- The aggregation loop of show_status (status.py lines 92-106), carrying
`top_height` and `last_version` through the items.  For each item it reads
the chain future first (updating `top_height` when a height is present),
then the version future; if either read raises, the item is downgraded to
chain None / version unknown, but an update of `top_height` made before the
version read raised is kept, exactly as in the Python code. -/
def aggLoop : Nat → Option Version → List PolledItem → Nat × Option Version × List Resolved
  | top, last, [] => (top, last, [])
  | top, last, it :: rest =>
    match it.chainQ with
    | none =>
      let r := aggLoop top last rest
      (r.1, r.2.1, ⟨none, none⟩ :: r.2.2)
    | some c =>
      let top1 :=
        match c.height with
        | some h => if top < h then h else top
        | none => top
      match it.verQ with
      | none =>
        let r := aggLoop top1 last rest
        (r.1, r.2.1, ⟨none, none⟩ :: r.2.2)
      | some v =>
        let last1 := if is_lower_version last (some v) then some v else last
        let r := aggLoop top1 last1 rest
        (r.1, r.2.1, ⟨some c, some v⟩ :: r.2.2)

/-- The aggregation phase started from `top_height = 0`, `last_version = None`. -/
def aggregate (items : List PolledItem) : Nat × Option Version × List Resolved :=
  aggLoop 0 none items

def topHeight (items : List PolledItem) : Nat :=
  (aggregate items).1

def lastVersionOf (items : List PolledItem) : Option Version :=
  (aggregate items).2.1

def resolvedOf (items : List PolledItem) : List Resolved :=
  (aggregate items).2.2

/-- The heights of the items whose chain query succeeded and returned a
height key (whether or not their version query also succeeded). -/
def chainHeights (items : List PolledItem) : List Nat :=
  items.filterMap (fun it => it.chainQ.bind (fun c => c.height))

/-- The versions of the items whose two queries both succeeded. -/
def fullVersions (items : List PolledItem) : List Version :=
  items.filterMap (fun it =>
    match it.chainQ, it.verQ with
    | some _, some v => some v
    | _, _ => none)

/-- How one item resolves, independent of the running aggregates: fully
populated when both queries succeeded, fully absent otherwise. -/
def resolveItem (it : PolledItem) : Resolved :=
  match it.chainQ, it.verQ with
  | some c, some v => ⟨some c, some v⟩
  | _, _ => ⟨none, none⟩

/-- Follows the claim's words, for comparison with the code: the heights of
the nodes whose results end up fully populated. -/
def fullHeights (items : List PolledItem) : List Nat :=
  items.filterMap (fun it =>
    match it.chainQ, it.verQ with
    | some c, some _ => c.height
    | _, _ => none)

/-- Follows the claim's words, for comparison with the code: the top height
computed only from nodes whose results are fully populated. -/
def topHeightFull (items : List PolledItem) : Nat :=
  (fullHeights items).foldl Nat.max 0

/-- The chain part of a printed status row: late (warning style, with the
height deficit printed) or plain. -/
inductive Cell where
  | late (height : Nat) (state : String) (deficit : Int)
  | plain (height : Nat) (state : String)
deriving Repr, DecidableEq

/-- The display decision of status.py lines 171-180: when the chain snapshot
has both a height and a state, flag the row late when `height < top_height - 2`
(Python integer arithmetic, embedded over Int), printing the deficit
`height - top_height`; otherwise print the height and state plainly. -/
def chainCell (top : Nat) (c : ChainSnap) : Option Cell :=
  match c.height, c.state with
  | some h, some s =>
    some (if (h : Int) < (top : Int) - 2 then Cell.late h s ((h : Int) - (top : Int))
          else Cell.plain h s)
  | _, _ => none

def isLateCell : Option Cell → Bool
  | some (Cell.late _ _ _) => true
  | _ => false

/-- The late_nodes counter of the display loop: one per reachable item whose
chain cell is flagged late. -/
def countLate (top : Nat) (rs : List Resolved) : Nat :=
  rs.countP (fun r =>
    match r.chain with
    | some c => isLateCell (chainCell top c)
    | none => false)

/-- The all_nodes counter of the display loop: one per reachable item. -/
def countReachable (rs : List Resolved) : Nat :=
  rs.countP (fun r => r.chain.isSome)

/-- The data of the summary line printed after the rows. -/
structure Summary where
  late : Nat
  reachable : Nat
  nextTerm : Int
  timeNext : Int
deriving Repr, DecidableEq

/-- The summary of show_status (status.py lines 184-189): late and reachable
counts, and the estimated next-term time
`now + datetime.timedelta(seconds=(next_term - top_height) * 2)`, times being
modelled in seconds. -/
def statusSummary (now nextTerm : Int) (items : List PolledItem) : Summary :=
  let r := aggregate items
  { late := countLate r.1 r.2.2
    reachable := countReachable r.2.2
    nextTerm := nextTerm
    timeNext := now + (nextTerm - (r.1 : Int)) * 2 }

/-- One entry of the validator roster returned by icon_getPReps. -/
structure RosterEntry where
  address : String
  nodeAddress : Option String
  grade : String
  power : Nat
  name : String
deriving Repr, DecidableEq

/-- One entry of the node metadata file: the name and ip keys may be absent. -/
structure NodeInfo where
  name : Option String
  ip : Option String
deriving Repr, DecidableEq

/-- The record the roster loop builds for a pollable node. -/
structure PrepDisplay where
  name : String
  ip : Option String
  type : String
  power : Nat
deriving Repr, DecidableEq

/-- One slot of the items list built by the roster loop: PRep(None)
placeholders advance the index silently, full records carry display data. -/
inductive RosterItem where
  | placeholder
  | full (d : PrepDisplay)
deriving Repr, DecidableEq

/-- Modelled from the spec: the GRADE_TO_TYPE map of the `prep` module, which
is not under src/.  It maps the fixed grade codes to tier display names, the
glossary's main producer, sub producer and candidate tiers. -/
def GRADE_TO_TYPE (grade : String) : String :=
  if grade = "0x0" then "Main" else if grade = "0x1" then "Sub" else "Cand"

/-- Key lookup in the loaded node metadata mapping. -/
def lookupInfo : List (String × NodeInfo) → String → Option NodeInfo
  | [], _ => none
  | (k, v) :: rest, a => if k = a then some v else lookupInfo rest a

/-- The roster loop of show_status (status.py lines 52-85).  For each roster
entry the display address prefers the nodeAddress alias.  When the address is
absent from the metadata and the grade is "0x1" a placeholder is appended;
when it is absent with any other grade the code executes
`item.append(PRep({...}))`, where `item` is either not yet bound (NameError)
or bound to a PRep object that has no append method (AttributeError) — a typo
for `items.append` — so the run terminates with an uncaught exception,
embedded as an error result.  When metadata is present but misses name or ip
a placeholder is appended; otherwise a full record with the ip is appended. -/
def process_preps : List RosterEntry → List (String × NodeInfo) → Except String (List RosterItem)
  | [], _ => .ok []
  | p :: rest, prep_info =>
    let addr :=
      match p.nodeAddress with
      | some a => a
      | none => p.address
    match lookupInfo prep_info addr with
    | none =>
      if p.grade = "0x1" then
        match process_preps rest prep_info with
        | .error e => .error e
        | .ok items => .ok (RosterItem.placeholder :: items)
      else
        .error "item.append: NameError or AttributeError"
    | some info =>
      match info.name, info.ip with
      | some _, some ip =>
        match process_preps rest prep_info with
        | .error e => .error e
        | .ok items =>
          .ok (RosterItem.full ⟨p.name, some ip, GRADE_TO_TYPE p.grade, p.power⟩ :: items)
      | _, _ =>
        match process_preps rest prep_info with
        | .error e => .error e
        | .ok items => .ok (RosterItem.placeholder :: items)

/-! Embedding of src/icx/txscan.py -/

/-- The nested call data of a transaction: the method key may be absent. -/
structure TxData where
  method : Option String
deriving Repr, DecidableEq

/-- A transaction dictionary as returned by the chain; every key the scanner
reads may be absent. -/
structure Tx where
  txHash : Option String
  «from» : Option String
  «to» : Option String
  dataType : Option String
  data : Option TxData
  value : Option String
deriving Repr, DecidableEq

/-- dict_get(tx, ["data", "method"]): walks both keys, absent gives the
default. -/
def txDataMethod (tx : Tx) : Option String :=
  tx.data.bind (fun d => d.method)

/-- Python membership of an optional field in a list of strings: an absent
field (None) is never a member. -/
def dictIn (o : Option String) (l : List String) : Bool :=
  match o with
  | some s => l.contains s
  | none => false

/-- The truncation modes of the missing util module. -/
inductive Shorten where
  | MIDDLE
  | LEFT
  | RIGHT
deriving Repr, DecidableEq

/-- Modelled from the spec: `shorten` of the util module, which is not under
src/.  A string no longer than the budget is returned unchanged; a longer one
is truncated with a middle ellipsis, a left truncation, or a right
truncation, per the mode. -/
def shorten (s : String) (size : Nat) (mode : Shorten) : String :=
  if s.length ≤ size then s
  else
    match mode with
    | .MIDDLE =>
      let keep := size - 2
      s.take (keep / 2) ++ ".." ++ s.drop (s.length - (keep - keep / 2))
    | .LEFT => ".." ++ s.drop (s.length - (size - 2))
    | .RIGHT => s.take (size - 2) ++ ".."

def SHORT_ADDR_LEN : Nat := 20

def shorten_address (s : String) : String :=
  shorten s SHORT_ADDR_LEN Shorten.MIDDLE

def hexVal (c : Char) : Nat :=
  if c.isDigit then c.toNat - 48
  else if c ≥ 'a' ∧ c ≤ 'f' then c.toNat - 87
  else if c ≥ 'A' ∧ c ≤ 'F' then c.toNat - 55
  else 0

/-- Modelled from the spec: numeric-string parsing as Python int(s, 0),
accepting a 0x hex prefix or plain decimal digits. -/
def parseNum (s : String) : Nat :=
  match s.data with
  | '0' :: 'x' :: rest => rest.foldl (fun a c => a * 16 + hexVal c) 0
  | cs => cs.foldl (fun a c => a * 10 + (c.toNat - 48)) 0

def natDigitsAux : Nat → Nat → List Char
  | 0, _ => []
  | fuel + 1, n => if n = 0 then [] else natDigitsAux fuel (n / 10) ++ [Char.ofNat (48 + n % 10)]

/-- Decimal rendering of a natural number. -/
def natToString (n : Nat) : String :=
  if n = 0 then "0" else String.mk (natDigitsAux (n + 1) n)

def padZeros (s : String) (d : Nat) : String :=
  if s.length < d then String.mk (List.replicate (d - s.length) '0') ++ s else s

/-- Modelled from the spec: `format_decimals` of the util module, which is
not under src/.  It renders an amount string, scaled by the chain's 10^18
unit, as a decimal with the requested number of fractional digits. -/
def format_decimals (s : String) (d : Nat) : String :=
  let amount := parseNum s
  let whole := amount / 10 ^ 18
  let frac := amount % 10 ^ 18 * 10 ^ d / 10 ^ 18
  natToString whole ++ "." ++ padZeros (natToString frac) d

def SHORT_VALUE_LEN : Nat := 20

def format_value (s : String) : String :=
  shorten (format_decimals s 2) SHORT_VALUE_LEN Shorten.LEFT

/-- A display column: the value extractor takes the row title and the
transaction, as the Python lambdas do, and may raise (the id column indexes
tx["txHash"] directly, a KeyError when absent). -/
structure Column where
  get_value : String → Tx → Except Unit String
  size : Nat
  name : String

def colId : Column :=
  ⟨fun _ tx =>
    match tx.txHash with
    | some h => .ok h
    | none => .error (), 66, "ID"⟩

def colFrom : Column :=
  ⟨fun _ tx => .ok (tx.«from».getD "-"), 42, "From"⟩

def colFromShort : Column :=
  ⟨fun _ tx => .ok (shorten_address (tx.«from».getD "-")), 20, "From"⟩

def colType : Column :=
  ⟨fun _ tx => .ok (tx.dataType.getD "transfer"), 8, "Type"⟩

def colMethod : Column :=
  ⟨fun _ tx => .ok (shorten ((txDataMethod tx).getD "-") 20 Shorten.RIGHT), 20, "Method"⟩

def colTo : Column :=
  ⟨fun _ tx => .ok (tx.«to».getD "-"), 42, "To"⟩

def colToShort : Column :=
  ⟨fun _ tx => .ok (shorten_address (tx.«to».getD "-")), 20, "To"⟩

def colValue : Column :=
  ⟨fun _ tx => .ok (format_value (tx.value.getD "0")), 20, "Value"⟩

/-- The TX_COLUMNS dictionary as a name lookup. -/
def TX_COLUMNS (name : String) : Option Column :=
  match name with
  | "id" => some colId
  | "from" => some colFrom
  | "from..." => some colFromShort
  | "type" => some colType
  | "method" => some colMethod
  | "to" => some colTo
  | "to..." => some colToShort
  | "value" => some colValue
  | _ => none

/-- The synthetic leading height column. -/
def TX_HEIGHT_COLUMN : Column :=
  ⟨fun title _ => .ok title, 8, "Height"⟩

def DEFAULT_COLUMN_NAMES : List String :=
  ["id", "from...", "type", "method", "to", "value"]

/-- What the column of the given name displays for a transaction. -/
def colRender (name : String) (title : String) (tx : Tx) : Option (Except Unit String) :=
  (TX_COLUMNS name).map (fun c => c.get_value title tx)

/-- merge_filters: the combined predicate returns False as soon as one
filter rejects, True when all accept. -/
def merge_filters : List (Tx → Bool) → Tx → Bool
  | [], _ => true
  | f :: fs, tx => if f tx then merge_filters fs tx else false

def splitAux (sep : Char) : List Char → List Char → List String
  | [], acc => [String.mk acc.reverse]
  | c :: cs, acc =>
    if c = sep then String.mk acc.reverse :: splitAux sep cs []
    else splitAux sep cs (c :: acc)

/-- Python str.split(","): the comma-separated pieces of a string, an empty
string giving the one-element list of the empty string. -/
def splitComma (s : String) : List String :=
  splitAux ',' s.data []

/-- expand_comma: split every argument on commas and concatenate the items. -/
def expand_comma : List String → List String
  | [] => []
  | arg :: rest => splitComma arg ++ expand_comma rest

/-- Modelled from the spec: `ensure_address` of the util module, which is not
under src/; it normalizes an address string, embedded as the identity on
already-normalized addresses. -/
def ensure_address (s : String) : String := s

/-- The filter construction of scan (txscan.py lines 139-159), in source
order: nobase, receivers, senders, addresses, methods, data_types.  The
receiver, sender, address and data-type options are comma-expanded; the
method option is used as given, without expand_comma. -/
def scanFilters (nobase : Bool) (receivers senders addresses methods data_types : List String) :
    List (Tx → Bool) :=
  (if nobase then [fun (tx : Tx) => tx.dataType != some "base"] else []) ++
  (if 0 < receivers.length then
    [fun (tx : Tx) => dictIn tx.«to» ((expand_comma receivers).map ensure_address)] else []) ++
  (if 0 < senders.length then
    [fun (tx : Tx) => dictIn tx.«from» ((expand_comma senders).map ensure_address)] else []) ++
  (if 0 < addresses.length then
    [fun (tx : Tx) => dictIn tx.«from» ((expand_comma addresses).map ensure_address) ||
               dictIn tx.«to» ((expand_comma addresses).map ensure_address)] else []) ++
  (if 0 < methods.length then [fun (tx : Tx) => dictIn (txDataMethod tx) methods] else []) ++
  (if 0 < data_types.length then
    [fun (tx : Tx) => (expand_comma data_types).contains (tx.dataType.getD "transfer")] else [])

/-- The column-name list the scanner resolves: the defaults when no --column
was given, else the given occurrences comma-expanded. -/
def scanColumns (columns : List String) : List String :=
  if columns.length = 0 then DEFAULT_COLUMN_NAMES else expand_comma columns

/-- list(map(lambda x: TX_COLUMNS[x], columns)): the first unknown name
raises a KeyError carrying that name. -/
def resolveColumns : List String → Except String (List Column)
  | [] => .ok []
  | n :: rest =>
    match TX_COLUMNS n with
    | none => .error n
    | some c =>
      match resolveColumns rest with
      | .error e => .error e
      | .ok cs => .ok (c :: cs)

/-- A block as returned by get_block, with the fields the scanner reads. -/
structure Block where
  height : Int
  txs : List Tx
deriving Repr, DecidableEq

/-- The observable output events of the scan loop: the header line and the
data rows (a row is a function of the title string, the transaction and the
resolved columns). -/
inductive ScanEv where
  | header
  | row (title : String) (tx : Tx)
deriving Repr, DecidableEq

/-- The row loop of show_txs: the first row carries the running title, every
later row a blank title. -/
def printRows : String → List Tx → List ScanEv
  | _, [] => []
  | title, tx :: rest => ScanEv.row title tx :: printRows "" rest

/-- show_txs (txscan.py lines 93-98): reverse the transactions when asked,
label the first row with the block height, blank the rest. -/
def show_txs (height : Int) (txs : List Tx) (reverse : Bool) : List ScanEv :=
  printRows (toString height) (if reverse then txs.reverse else txs)

/-- The blocks the scan loop fetches, fuel-indexed: each iteration fetches
the cursor and advances to height+1 (forward) or height-1. -/
def blocksVisited (gb : Int → Block) (forward : Bool) : Nat → Int → List Block
  | 0, _ => []
  | n + 1, id =>
    let b := gb id
    b :: blocksVisited gb forward n (if forward then b.height + 1 else b.height - 1)

/-- The heights of the blocks the scan loop fetches. -/
def heightsVisited (gb : Int → Block) (forward : Bool) (n : Nat) (id : Int) : List Int :=
  (blocksVisited gb forward n id).map Block.height

/-- The scan loop of txscan.py lines 171-186, fuel-indexed, with the
sep_print flag threaded through: fetch the block, filter its transactions,
and when any survive print the header (once, when sep_print is still false)
followed by the rows of show_txs with reverse = not forward; then advance the
cursor. -/
def scanSteps (gb : Int → Block) (f : Tx → Bool) (forward : Bool) :
    Nat → Int → Bool → List ScanEv
  | 0, _, _ => []
  | n + 1, id, sep =>
    let blk := gb id
    let txs := blk.txs.filter f
    let here :=
      if 0 < txs.length then
        (if sep then [] else [ScanEv.header]) ++ show_txs blk.height txs (!forward)
      else []
    here ++ scanSteps gb f forward n (if forward then blk.height + 1 else blk.height - 1)
      (if 0 < txs.length then true else sep)

/-- The scan command after filter construction: resolve the column names
(raising a KeyError on an unknown one, before any block is fetched), then run
the loop from the resolved start with sep_print false. -/
def scanRun (gb : Int → Block) (columns : List String) (f : Tx → Bool) (forward : Bool)
    (start : Int) (fuel : Nat) : Except String (List ScanEv) :=
  match resolveColumns (scanColumns columns) with
  | .error e => .error e
  | .ok _ => .ok (scanSteps gb f forward fuel start false)

/-- The rows a list of blocks contributes, block by block. -/
def rowsOfBlocks (f : Tx → Bool) (forward : Bool) : List Block → List ScanEv
  | [] => []
  | b :: rest => show_txs b.height (b.txs.filter f) (!forward) ++ rowsOfBlocks f forward rest

/-! Helper lemmas -/

lemma max_ite (a b : Nat) : (if a < b then b else a) = Nat.max a b := by
  simp only [Nat.max_def]
  split <;> split <;> omega

lemma aggLoop_resolved (items : List PolledItem) :
    ∀ top last, (aggLoop top last items).2.2 = items.map resolveItem := by
  induction items with
  | nil => intro top last; rfl
  | cons it rest ih =>
    intro top last
    obtain ⟨cq, vq⟩ := it
    cases cq <;> cases vq <;> simp [aggLoop, resolveItem, ih]

lemma aggLoop_top (items : List PolledItem) :
    ∀ top last, (aggLoop top last items).1 = (chainHeights items).foldl Nat.max top := by
  induction items with
  | nil => intro top last; rfl
  | cons it rest ih =>
    intro top last
    obtain ⟨cq, vq⟩ := it
    cases cq with
    | none => simp [aggLoop, chainHeights, ih]
    | some c =>
      obtain ⟨ch, cs⟩ := c
      cases ch <;> cases vq <;>
        simp [aggLoop, chainHeights, ih, max_ite, List.filterMap_cons, Option.bind]

lemma aggLoop_last (items : List PolledItem) :
    ∀ top last, (aggLoop top last items).2.1 =
      (fullVersions items).foldl
        (fun l v => if is_lower_version l (some v) then some v else l) last := by
  induction items with
  | nil => intro top last; rfl
  | cons it rest ih =>
    intro top last
    obtain ⟨cq, vq⟩ := it
    cases cq <;> cases vq <;> simp [aggLoop, fullVersions, ih, List.filterMap_cons]

lemma le_foldl_max (l : List Nat) : ∀ a : Nat, a ≤ l.foldl Nat.max a := by
  induction l with
  | nil => intro a; exact Nat.le_refl a
  | cons x xs ih =>
    intro a
    exact Nat.le_trans (Nat.le_max_left a x) (ih (Nat.max a x))

lemma mem_le_foldl_max (l : List Nat) : ∀ (a x : Nat), x ∈ l → x ≤ l.foldl Nat.max a := by
  induction l with
  | nil => intro a x hx; cases hx
  | cons y ys ih =>
    intro a x hx
    rcases List.mem_cons.mp hx with h | h
    · subst h
      exact Nat.le_trans (Nat.le_max_right a x) (le_foldl_max ys (Nat.max a x))
    · exact ih (Nat.max a y) x h

lemma foldl_max_mem (l : List Nat) : ∀ a : Nat, l.foldl Nat.max a ∈ l ∨ l.foldl Nat.max a = a := by
  induction l with
  | nil => intro a; exact Or.inr rfl
  | cons y ys ih =>
    intro a
    simp only [List.foldl_cons]
    rcases ih (Nat.max a y) with h | h
    · exact Or.inl (List.mem_cons_of_mem y h)
    · have hch : Nat.max a y = a ∨ Nat.max a y = y := by
        simp only [Nat.max_def]
        split <;> simp
      rcases hch with hm | hm
      · exact Or.inr (h.trans hm)
      · exact Or.inl (by rw [h, hm]; exact List.mem_cons_self y ys)

lemma merge_filters_cons (f : Tx → Bool) (fs : List (Tx → Bool)) (tx : Tx) :
    merge_filters (f :: fs) tx = (f tx && merge_filters fs tx) := by
  cases h : f tx <;> simp [merge_filters, h]

lemma merge_filters_append (a b : List (Tx → Bool)) (tx : Tx) :
    merge_filters (a ++ b) tx = (merge_filters a tx && merge_filters b tx) := by
  induction a with
  | nil => simp [merge_filters]
  | cons f fs ih => simp [merge_filters_cons, ih, Bool.and_assoc]

lemma merge_filters_ite (c : Prop) [Decidable c] (f : Tx → Bool) (rest : List (Tx → Bool))
    (tx : Tx) :
    merge_filters ((if c then [f] else []) ++ rest) tx =
      ((if c then f tx else true) && merge_filters rest tx) := by
  split <;> simp [merge_filters_append, merge_filters_cons, merge_filters]

lemma merge_filters_optional (c : Prop) [Decidable c] (f : Tx → Bool) (tx : Tx) :
    merge_filters (if c then [f] else []) tx = if c then f tx else true := by
  split <;> simp [merge_filters_cons, merge_filters]

lemma printRows_blank (l : List Tx) :
    printRows "" l = l.map (fun tx => ScanEv.row "" tx) := by
  induction l with
  | nil => rfl
  | cons x xs ih => simp [printRows, ih]

lemma printRows_length (l : List Tx) : ∀ t, (printRows t l).length = l.length := by
  induction l with
  | nil => intro t; rfl
  | cons x xs ih => intro t; simp [printRows, ih]

lemma show_txs_length (height : Int) (txs : List Tx) (reverse : Bool) :
    (show_txs height txs reverse).length = txs.length := by
  rw [show_txs, printRows_length]
  split <;> simp

lemma show_txs_nil (height : Int) (reverse : Bool) : show_txs height [] reverse = [] := by
  cases reverse <;> rfl

lemma scanSteps_true (gb : Int → Block) (f : Tx → Bool) (forward : Bool) :
    ∀ (n : Nat) (id : Int),
      scanSteps gb f forward n id true = rowsOfBlocks f forward (blocksVisited gb forward n id) := by
  intro n
  induction n with
  | zero => intro id; rfl
  | succ n ih =>
    intro id
    by_cases h : 0 < ((gb id).txs.filter f).length
    · simp [scanSteps, blocksVisited, rowsOfBlocks, h, ih]
    · have hz : (gb id).txs.filter f = [] := List.length_eq_zero.mp (Nat.eq_zero_of_not_pos h)
      simp [scanSteps, blocksVisited, rowsOfBlocks, h, ih, hz, show_txs_nil]

lemma header_cons_of_ne_nil (rows : List ScanEv) (h : rows.length ≠ 0) :
    [ScanEv.header] ++ rows = if rows.length = 0 then [] else ScanEv.header :: rows := by
  rw [if_neg h]
  rfl

lemma resolveColumns_error (names : List String) :
    (∃ n ∈ names, TX_COLUMNS n = none) → ∃ e, resolveColumns names = Except.error e := by
  induction names with
  | nil => rintro ⟨n, hn, -⟩; cases hn
  | cons m rest ih =>
    rintro ⟨n, hn, hnone⟩
    rcases List.mem_cons.mp hn with h | h
    · subst h
      exact ⟨n, by simp [resolveColumns, hnone]⟩
    · cases hm : TX_COLUMNS m with
      | none => exact ⟨m, by simp [resolveColumns, hm]⟩
      | some c =>
        obtain ⟨e, he⟩ := ih ⟨n, h, hnone⟩
        exact ⟨e, by simp [resolveColumns, hm, he]⟩

/-! Concrete inputs used by witnesses and counterexamples -/

def emptyTx : Tx := ⟨none, none, none, none, none, none⟩

def txBase4 : Tx := ⟨none, none, none, some "base", some ⟨some "transfer"⟩, none⟩

def txTransfer4 : Tx := ⟨none, none, none, none, some ⟨some "transfer"⟩, none⟩

def txStake4 : Tx := ⟨none, none, none, none, some ⟨some "stake"⟩, none⟩

def cexPolled : PolledItem := ⟨some ⟨some 100, some "Started"⟩, none⟩

def exPolled3 : List PolledItem := [⟨some ⟨some 10, some "Started"⟩, some [1, 10, 0]⟩]

def constGb : Int → Block := fun id => ⟨id, []⟩

/-! Claim theorems -/

/-- Claim C1: the claim (with the spec) says a roster entry whose resolved
display address is absent from the node metadata and whose grade is not the
lowest tier gets a degraded record (name, tier, voting power, no IP), is not
polled, and processing continues with the remaining entries.  The code
instead executes `item.append(...)` — a typo for `items.append` — so the
whole run terminates with an uncaught NameError or AttributeError: here a
roster whose first entry is fully known and whose second entry (grade "0x0")
is absent from the metadata produces an error instead of a degraded record. -/
theorem claim1 :
    process_preps
      [⟨"hxGOOD", none, "0x0", 1, "node-a"⟩, ⟨"hxMISSING", none, "0x0", 2, "node-b"⟩]
      [("hxGOOD", ⟨some "node-a", some "1.2.3.4"⟩)] =
      Except.error "item.append: NameError or AttributeError" := rfl

/-- Claim C2 counterexample: a node whose chain query succeeded at height 100
but whose version query raised is marked unreachable (chain None, version
unknown), yet the computed top height is 100 and not the 0 that an
aggregation over fully populated nodes only would give — so a datum from a
node that ends up marked unreachable does contribute to the top height. -/
theorem claim2_counterexample :
    topHeight [cexPolled] = 100 ∧ topHeightFull [cexPolled] = 0 ∧
      resolvedOf [cexPolled] = [⟨none, none⟩] :=
  ⟨rfl, rfl, rfl⟩

/-- Claim C2 (amended): after aggregation every polled node's stored result
is all-or-nothing — fully populated exactly when both of its queries
succeeded, fully absent otherwise — and the last version is folded only over
the fully populated nodes; the top height, however, is the maximum over every
node whose chain query succeeded and returned a height, including nodes later
marked unreachable because their version query failed. -/
theorem claim2 :
    (∀ items : List PolledItem, resolvedOf items = items.map resolveItem)
  ∧ (∀ items : List PolledItem,
      topHeight items = (chainHeights items).foldl Nat.max 0)
  ∧ (∀ items : List PolledItem,
      lastVersionOf items =
        (fullVersions items).foldl
          (fun l v => if is_lower_version l (some v) then some v else l) none) :=
  ⟨fun items => aggLoop_resolved items 0 none,
   fun items => aggLoop_top items 0 none,
   fun items => aggLoop_last items 0 none⟩

/-- Claim C3: the computed top height is the maximum of the successfully
polled heights — an upper bound, attained whenever at least one height was
polled — and a reachable row with both height and state present is flagged
late exactly when its height is more than 2 below the top height; a height
exactly 2 below the top is shown plainly. -/
theorem claim3 :
    (∀ (items : List PolledItem) (h : Nat), h ∈ chainHeights items → h ≤ topHeight items)
  ∧ (∀ (items : List PolledItem) (h : Nat), h ∈ chainHeights items →
      topHeight items ∈ chainHeights items)
  ∧ (∀ (top h : Nat) (s : String),
      isLateCell (chainCell top ⟨some h, some s⟩) = true ↔ 2 < (top : Int) - (h : Int))
  ∧ (∀ (top h : Nat) (s : String), (h : Int) = (top : Int) - 2 →
      chainCell top ⟨some h, some s⟩ = some (Cell.plain h s)) := by
  refine ⟨?_, ?_, ?_, ?_⟩
  · intro items h hm
    have htop : topHeight items = (chainHeights items).foldl Nat.max 0 :=
      aggLoop_top items 0 none
    rw [htop]
    exact mem_le_foldl_max _ 0 h hm
  · intro items h hm
    have htop : topHeight items = (chainHeights items).foldl Nat.max 0 :=
      aggLoop_top items 0 none
    rcases foldl_max_mem (chainHeights items) 0 with hmem | hz
    · rw [htop]; exact hmem
    · have hle : h ≤ topHeight items := by rw [htop]; exact mem_le_foldl_max _ 0 h hm
      have h0 : topHeight items = 0 := by rw [htop, hz]
      have hh0 : h = 0 := by omega
      rw [h0, ← hh0]
      exact hm
  · intro top h s
    by_cases hlt : (h : Int) < (top : Int) - 2
    · simp only [chainCell, if_pos hlt, isLateCell]
      constructor
      · intro _; omega
      · intro _; trivial
    · simp only [chainCell, if_neg hlt, isLateCell]
      constructor
      · intro hfalse; cases hfalse
      · intro hcontra; omega
  · intro top h s he
    have hnlt : ¬ ((h : Int) < (top : Int) - 2) := by omega
    simp only [chainCell, if_neg hnlt]

/-- Claim C3 witness at a concrete roster: the polled height 10 is bounded by
the top height, and a node at height 8 with top height 10 (exactly 2 below)
renders plainly. -/
theorem claim3_witness :
    10 ≤ topHeight exPolled3 ∧
      chainCell 10 ⟨some 8, some "Started"⟩ = some (Cell.plain 8 "Started") :=
  ⟨claim3.1 exPolled3 10 (by decide), claim3.2.2.2 10 8 "Started" (by decide)⟩

/-- Claim C4: the combined scan filter accepts a transaction iff every
enabled predicate accepts it (logical AND, vacuously true with no
predicates); under --nobase --method=transfer, a transaction with dataType
"base" is excluded even though its call method is "transfer", a non-base
transaction with call method "transfer" passes, and a non-base transaction
with call method "stake" does not. -/
theorem claim4 :
    (∀ (fs : List (Tx → Bool)) (tx : Tx),
      merge_filters fs tx = true ↔ ∀ f ∈ fs, f tx = true)
  ∧ merge_filters (scanFilters true [] [] [] ["transfer"] []) txBase4 = false
  ∧ merge_filters (scanFilters true [] [] [] ["transfer"] []) txTransfer4 = true
  ∧ merge_filters (scanFilters true [] [] [] ["transfer"] []) txStake4 = false := by
  refine ⟨?_, rfl, rfl, rfl⟩
  intro fs tx
  induction fs with
  | nil => simp [merge_filters]
  | cons f rest ih =>
    simp [merge_filters_cons, Bool.and_eq_true, List.forall_mem_cons, ih]

/-- Claim C4 witness: the combined filter with no enabled predicates accepts
a concrete transaction, by the AND characterization. -/
theorem claim4_witness : merge_filters [] txBase4 = true :=
  (claim4.1 [] txBase4).mpr (fun f hf => absurd hf (List.not_mem_nil f))

/-- Claim C5 counterexample: the claim includes --method among the
comma-expandable options, but the code never applies expand_comma to the
method values: with the single occurrence "transfer,stake" the expansion the
claim requires contains "transfer", yet the built filter rejects a
transaction whose call method is "transfer" (it compares against the literal
string "transfer,stake"). -/
theorem claim5_counterexample :
    expand_comma ["transfer,stake"] = ["transfer", "stake"] ∧
      merge_filters (scanFilters false [] [] [] ["transfer,stake"] []) txTransfer4 = false :=
  ⟨rfl, rfl⟩

/-- Claim C5 (amended): the --to, --from, --address and --data_type options
are repeatable and comma-expandable — each occurrence is split on commas and
the filter matches against the union of the resulting items — while the
--method option is only repeatable: its occurrences form the union unsplit,
each occurrence matched literally.  expand_comma is characterized as the
concatenation of the comma-splits. -/
theorem claim5 :
    (∀ args : List String, expand_comma args = (args.map splitComma).flatten)
  ∧ (∀ (nobase : Bool) (rcv snd adr mth dt : List String) (tx : Tx),
      merge_filters (scanFilters nobase rcv snd adr mth dt) tx =
        ((if nobase then tx.dataType != some "base" else true) &&
         (if 0 < rcv.length then dictIn tx.«to» ((expand_comma rcv).map ensure_address)
          else true) &&
         (if 0 < snd.length then dictIn tx.«from» ((expand_comma snd).map ensure_address)
          else true) &&
         (if 0 < adr.length then
            (dictIn tx.«from» ((expand_comma adr).map ensure_address) ||
             dictIn tx.«to» ((expand_comma adr).map ensure_address))
          else true) &&
         (if 0 < mth.length then dictIn (txDataMethod tx) mth else true) &&
         (if 0 < dt.length then (expand_comma dt).contains (tx.dataType.getD "transfer")
          else true))) := by
  constructor
  · intro args
    induction args with
    | nil => rfl
    | cons a rest ih => simp [expand_comma, ih]
  · intro nobase rcv snd adr mth dt tx
    simp only [scanFilters, merge_filters_append, merge_filters_optional, merge_filters,
      Bool.and_true]

/-- Claim C6 counterexample: the type column extracts the dataType field, and
on a transaction without that field it renders the default tag "transfer",
not a dash. -/
theorem claim6_counterexample :
    colRender "type" "" emptyTx = some (Except.ok "transfer") ∧ "transfer" ≠ "-" :=
  ⟨rfl, by decide⟩

/-- Claim C6 (amended): when the extracted field is absent, the from,
from..., method, to and to... columns render a dash; the type column instead
renders the default tag "transfer", the value column renders the zero amount
"0.00", and the id column raises a KeyError. -/
theorem claim6 (tx : Tx) :
    (tx.«from» = none → colRender "from" "" tx = some (Except.ok "-"))
  ∧ (tx.«from» = none → colRender "from..." "" tx = some (Except.ok "-"))
  ∧ (txDataMethod tx = none → colRender "method" "" tx = some (Except.ok "-"))
  ∧ (tx.«to» = none → colRender "to" "" tx = some (Except.ok "-"))
  ∧ (tx.«to» = none → colRender "to..." "" tx = some (Except.ok "-"))
  ∧ (tx.dataType = none → colRender "type" "" tx = some (Except.ok "transfer"))
  ∧ (tx.value = none → colRender "value" "" tx = some (Except.ok "0.00"))
  ∧ (tx.txHash = none → colRender "id" "" tx = some (Except.error ())) := by
  obtain ⟨t1, t2, t3, t4, t5, t6⟩ := tx
  refine ⟨fun h => ?_, fun h => ?_, fun h => ?_, fun h => ?_, fun h => ?_, fun h => ?_,
    fun h => ?_, fun h => ?_⟩
  · subst h; rfl
  · subst h; rfl
  · rcases t5 with _ | d
    · rfl
    · rcases d with ⟨_ | m⟩
      · rfl
      · exact absurd h (by simp [txDataMethod])
  · subst h; rfl
  · subst h; rfl
  · subst h; rfl
  · subst h
    have h1 : colRender "value" "" ⟨t1, t2, t3, t4, t5, none⟩ =
        some (Except.ok (format_value (Option.getD none "0"))) := rfl
    rw [h1]
    rfl
  · subst h; rfl

/-- Claim C6 witness: at the empty transaction the from column renders a dash
and the id column raises. -/
theorem claim6_witness :
    colRender "from" "" emptyTx = some (Except.ok "-") ∧
      colRender "id" "" emptyTx = some (Except.error ()) :=
  ⟨(claim6 emptyTx).1 rfl, (claim6 emptyTx).2.2.2.2.2.2.2 rfl⟩

/-- Claim C9: the estimated next-term time of the summary line equals the
time captured at the start of the run plus (nextTermHeight - topHeight) * 2
seconds, the top height being the maximum successfully polled height. -/
theorem claim9 (now nextTerm : Int) (items : List PolledItem) :
    (statusSummary now nextTerm items).timeNext =
      now + (nextTerm - ((chainHeights items).foldl Nat.max 0 : Nat)) * 2 := by
  have htop : (aggregate items).1 = (chainHeights items).foldl Nat.max 0 :=
    aggLoop_top items 0 none
  simp [statusSummary, htop]

/-- Claim C7: assuming every fetch returns a block whose height equals the
requested cursor, the scan loop visits heights start, start+1, start+2, ...
in forward mode and start, start-1, start-2, ... otherwise: a strictly
monotone arithmetic progression, the cursor after the block of height h being
h+1 forward and h-1 otherwise. -/
theorem claim7 (gb : Int → Block) (forward : Bool) (n : Nat) (start : Int)
    (hgb : ∀ id, (gb id).height = id) :
    heightsVisited gb forward n start =
      (List.range n).map
        (fun i : Nat => if forward then start + (i : Int) else start - (i : Int)) := by
  induction n generalizing start with
  | zero => rfl
  | succ n ih =>
    simp only [heightsVisited, blocksVisited, List.map_cons, hgb start]
    rw [List.range_succ_eq_map, List.map_cons, List.map_map]
    have htail := ih (if forward then start + 1 else start - 1)
    simp only [heightsVisited] at htail
    rw [htail]
    cases forward with
    | false =>
      simp only [if_neg Bool.false_ne_true]
      congr 1
      · simp
      · apply List.map_congr_left
        intro i _
        simp only [Function.comp]
        push_cast
        ring
    | true =>
      simp only [if_pos rfl]
      congr 1
      · simp
      · apply List.map_congr_left
        intro i _
        simp only [Function.comp]
        push_cast
        ring

/-- Claim C7 witness: with blocks echoing the requested cursor, three forward
iterations from 10 visit heights 10, 11, 12. -/
theorem claim7_witness : heightsVisited constGb true 3 10 = [10, 11, 12] := by
  rw [claim7 constGb true 3 10 (fun id => rfl)]
  decide

/-- Claim C8: a run of the scan loop prints nothing for blocks with no
surviving transactions, prints the header exactly once as the very first
output if and only if some visited block has survivors, then one row per
surviving transaction block by block; within a block the rows appear in
reverse order unless forward mode is set, the first printed row of the block
carrying the block height as its title and every later row a blank title. -/
theorem claim8 :
    (∀ (gb : Int → Block) (f : Tx → Bool) (forward : Bool) (n : Nat) (id : Int),
      scanSteps gb f forward n id false =
        if (rowsOfBlocks f forward (blocksVisited gb forward n id)).length = 0 then []
        else ScanEv.header :: rowsOfBlocks f forward (blocksVisited gb forward n id))
  ∧ (∀ (height : Int) (txs : List Tx) (reverse : Bool),
      show_txs height txs reverse =
        match if reverse then txs.reverse else txs with
        | [] => []
        | t :: ts => ScanEv.row (toString height) t :: ts.map (fun tx => ScanEv.row "" tx)) := by
  constructor
  · intro gb f forward n
    induction n with
    | zero => intro id; rfl
    | succ n ih =>
      intro id
      by_cases h : 0 < ((gb id).txs.filter f).length
      · simp only [scanSteps, if_pos h, blocksVisited, rowsOfBlocks, scanSteps_true]
        rw [List.append_assoc]
        apply header_cons_of_ne_nil
        rw [List.length_append, show_txs_length]
        omega
      · have hz : (gb id).txs.filter f = [] := List.length_eq_zero.mp (Nat.eq_zero_of_not_pos h)
        simp only [scanSteps, if_neg h, blocksVisited, rowsOfBlocks, hz, show_txs_nil,
          List.nil_append]
        exact ih _
  · intro height txs reverse
    rw [show_txs]
    cases hl : (if reverse then txs.reverse else txs) with
    | nil => rfl
    | cons t ts => simp [printRows, printRows_blank]

/-- Claim C10: when any comma-expanded --column value is not a known column
name, the scan command fails with an error (the KeyError on that name),
uniformly in the block source — so before any block is fetched — and
produces no output events, in particular no rows. -/
theorem claim10 (columns : List String)
    (h : ∃ n ∈ scanColumns columns, TX_COLUMNS n = none) :
    ∃ e, ∀ (gb : Int → Block) (f : Tx → Bool) (forward : Bool) (start : Int) (fuel : Nat),
      scanRun gb columns f forward start fuel = Except.error e := by
  obtain ⟨e, he⟩ := resolveColumns_error _ h
  exact ⟨e, fun gb f forward start fuel => by simp [scanRun, he]⟩

/-- Claim C10 witness: the unknown column name "bogus" makes every run error
out regardless of the block source. -/
theorem claim10_witness :
    ∃ e, ∀ (gb : Int → Block) (f : Tx → Bool) (forward : Bool) (start : Int) (fuel : Nat),
      scanRun gb ["bogus"] f forward start fuel = Except.error e :=
  claim10 ["bogus"] ⟨"bogus", by decide, rfl⟩

end Icx
